import Mathlib

/-!
Verification development for the ai-helpdesk repository.

The repository is a three-process help-desk system: a request/knowledge
service (src/backend/app.py), a notification relay
(src/backend/notification_service.py) and a voice-agent subscriber client
(src/backend/voice_agent.py).  This file gives a shallow embedding of the
data model and the operations of those modules, translated directly from
the Python source, and proves properties about them.

Modelling conventions:
- Python dicts become association lists `List (String × β)` with
  first-match lookup and in-place upsert (`dictLookup` / `dictInsert`),
  matching Python dict semantics (unique keys, insertion order).
- Python `str.lower()` and `str.strip()` become `lowerStr` / `trimStr`,
  structural functions over the character list (kernel-reducible).
- Python substring containment (`a in b`) becomes list infix on the
  character lists.
- Nondeterministic inputs of an endpoint (fresh uuid, current time) are
  passed as explicit parameters.
- A help-request record (a Python dict possibly missing keys) becomes a
  structure of `Option String` fields; `dict.get(k, d)` becomes `getD`,
  and a direct `dict[k]` access on a missing key (a Python KeyError that
  would surface as a 500) is modelled by an `Option`-valued operation
  returning `none`.
-/

namespace HelpDesk

/-- Python `str.lower()` on the character list (ASCII lowering, as
`Char.toLower`). -/
def lowerStr (s : String) : String := ⟨s.data.map Char.toLower⟩

/-- Python `str.strip()`: drop whitespace from both ends. -/
def trimStr (s : String) : String :=
  ⟨((s.data.dropWhile Char.isWhitespace).reverse.dropWhile Char.isWhitespace).reverse⟩

/-- Python dict lookup: first (unique) binding of the key. -/
def dictLookup {β : Type} (m : List (String × β)) (k : String) : Option β :=
  (m.find? (fun p => p.1 == k)).map (fun p => p.2)

/-- Python dict assignment `m[k] = v`: update in place if the key is
present, else append the new binding. -/
def dictInsert {β : Type} (m : List (String × β)) (k : String) (v : β) :
    List (String × β) :=
  if m.any (fun p => p.1 == k) then
    m.map (fun p => if p.1 == k then (k, v) else p)
  else
    m ++ [(k, v)]

/-- Python `del m[k]`. -/
def dictRemove {β : Type} (m : List (String × β)) (k : String) :
    List (String × β) :=
  m.filter (fun p => ¬ (p.1 == k))

/-- A stored help-request record: a Python dict with these optional keys
(`HelpRequest.to_dict` in app.py produces all of them; records read back
from the shared JSON file may miss any of them). -/
structure Rec where
  id : Option String
  question : Option String
  caller_info : Option String
  status : Option String
  created_at : Option String
  resolved_at : Option String
  answer : Option String
deriving DecidableEq, Repr

/-- The static baseline knowledge base hard-coded in app.py
(`knowledge_base`). -/
def knowledge_base : List (String × String) :=
  [("what are your salon hours?",
    "We are open from 9 AM to 7 PM, Monday to Saturday."),
   ("do you offer hair coloring?",
    "Yes, we offer a full range of hair coloring services!"),
   ("do you take walk-ins?",
    "Yes, we accept walk-ins, but appointments are recommended for minimal wait time."),
   ("where are you located?",
    "We\x27re located at 123 Main Street, downtown."),
   ("how much does a haircut cost?",
    "Haircuts start at $45 for short hair and $65 for long hair.")]

/-- State of the request/knowledge service: the in-memory
`help_requests` list, the persisted help_requests.json snapshot (in its
well-formed list-of-dicts shape), and the persisted learned-knowledge map
knowledge_base.json (in its well-formed object shape). -/
structure AppState where
  mem : List Rec
  file : List Rec
  learned : List (String × String)
deriving DecidableEq, Repr

/-- A notification POSTed to the relay (`send_notification` payloads in
app.py). -/
structure Notif where
  room_id : String
  request_id : String
  question : String
  answer : Option String
  status : String
deriving DecidableEq, Repr

/-- Response body of POST /call. -/
structure CallResp where
  response : String
  status : String
  help_request_id : Option String
deriving DecidableEq, Repr

/-- Room-id extraction in app.py:
`caller_info.split("#")[0] if "#" in caller_info else caller_info`. -/
def roomIdOf (caller : String) : String :=
  if '#' ∈ caller.data then ⟨caller.data.takeWhile (fun ch => ch != '#')⟩
  else caller

/-- Per-record normalisation performed by `save_help_requests`: default a
missing status to Pending, rewrite a lowercase pending status to Pending,
default a missing created_at to the current time. -/
def saveRec (now : String) (r : Rec) : Rec :=
  let r1 :=
    match r.status with
    | none => { r with status := some "Pending" }
    | some s => if s = "pending" then { r with status := some "Pending" } else r
  match r1.created_at with
  | none => { r1 with created_at := some now }
  | some _ => r1

/-- `save_help_requests`: the persisted snapshot is the normalised copy of
the collection (all entries in the model are dicts, so the non-dict skip
branch is vacuous). -/
def saveHelpRequests (now : String) (l : List Rec) : List Rec :=
  l.map (saveRec now)

/-- The `HelpRequest` constructor in app.py (the question argument is
lowered once more by the constructor). -/
def mkHelpRequest (question caller freshId now : String) : Rec :=
  { id := some freshId, question := some (lowerStr question),
    caller_info := some caller, status := some "Pending",
    created_at := some now, resolved_at := none, answer := none }

/-- Fixed escalation response text of POST /call. -/
def escalationResponse : String :=
  "Let me check with my supervisor and get back to you."

/-- POST /call (`receive_call`): lower the question, answer from the
baseline knowledge base, else from the learned knowledge base, else
append a Pending ledger entry, persist, and send a created-notification.
`freshId` is the generated uuid prefix, `now` the current timestamp. -/
def receiveCall (q0 caller freshId now : String) (st : AppState) :
    CallResp × AppState × Option Notif :=
  match dictLookup knowledge_base (lowerStr q0) with
  | some ans =>
      ({ response := ans, status := "answered", help_request_id := none },
       st, none)
  | none =>
      match dictLookup st.learned (lowerStr q0) with
      | some ans =>
          ({ response := ans, status := "answered", help_request_id := none },
           st, none)
      | none =>
          ({ response := escalationResponse, status := "escalated",
             help_request_id := some freshId },
           { st with
               mem := st.mem ++ [mkHelpRequest (lowerStr q0) caller freshId now],
               file := saveHelpRequests now
                 (st.mem ++ [mkHelpRequest (lowerStr q0) caller freshId now]) },
           some { room_id := roomIdOf caller, request_id := freshId,
                  question := lowerStr q0, answer := none,
                  status := "pending" })

/-- The scan loop of `resolve_request`: find a record with the requested
id whose status is pending case-insensitively; the loop breaks only on a
pending match, so a non-pending id match is skipped and scanning
continues.  On a hit it returns the updated list, the stored question of
the hit (`req.get("question")`) and its caller
(`req.get("caller_info", "Unknown Caller")`). -/
def resolveAux (rid ans now : String) :
    List Rec → Option (List Rec × Option String × String)
  | [] => none
  | r :: rs =>
    if r.id = some rid then
      if lowerStr (r.status.getD "") = "pending" then
        some ({ r with status := some "Resolved",
                       resolved_at := some now,
                       answer := some ans } :: rs,
              r.question, r.caller_info.getD "Unknown Caller")
      else
        (resolveAux rid ans now rs).map (fun t => (r :: t.1, t.2))
    else
      (resolveAux rid ans now rs).map (fun t => (r :: t.1, t.2))

/-- Outcome of POST /resolve-request: success body, or the 404 raised by
`HTTPException`. -/
inductive ResolveResult where
  | ok (message : String) (notif : Option Notif)
  | notFound
deriving DecidableEq, Repr

/-- POST /resolve-request (`resolve_request`): reload the collection from
the file, scan for a pending record with the id, 404 if none; on success
persist the updated collection, and, when the resolved record carries a
non-empty question, learn question → answer into the persisted knowledge
map and send a resolved-notification.  (The dict-shaped fallback branch
in the source is dead code: `load_help_requests` always returns a list.) -/
def resolveRequest (rid ans now : String) (st : AppState) :
    ResolveResult × AppState :=
  match resolveAux rid ans now st.file with
  | none => (ResolveResult.notFound, { st with mem := st.file })
  | some (updated, q?, caller) =>
      match q? with
      | some q =>
          if q = "" then
            (ResolveResult.ok "Request resolved successfully." none,
             { st with mem := updated, file := saveHelpRequests now updated })
          else
            (ResolveResult.ok "Request resolved successfully."
               (some { room_id := roomIdOf caller, request_id := rid,
                       question := q, answer := some ans,
                       status := "resolved" }),
             { mem := updated, file := saveHelpRequests now updated,
               learned := dictInsert st.learned q ans })
      | none =>
          (ResolveResult.ok "Request resolved successfully." none,
           { st with mem := updated, file := saveHelpRequests now updated })

/-- Outcome of DELETE /clear-resolved/{caller_id}/{request_id}. -/
inductive ClearOutcome where
  | success
  | notFound
  | notResolved
deriving DecidableEq, Repr

/-- The scan loop of `clear_resolved_request`.  Direct dict indexing
(`req["id"]`, then `req["caller_info"]` only when the id matched, then
`req["status"]` only when both matched) raises on a missing key, which is
modelled by `none`.  A matching record that is not Resolved returns the
failure immediately; a Resolved match sets the found flag and scanning
continues. -/
def clearAux (caller_id request_id : String) :
    List Rec → Bool → Option ClearOutcome
  | [], found => some (if found then ClearOutcome.success else ClearOutcome.notFound)
  | r :: rs, found =>
    match r.id with
    | none => none
    | some i =>
      if i = request_id then
        match r.caller_info with
        | none => none
        | some c =>
          if c = caller_id then
            match r.status with
            | none => none
            | some s =>
              if s = "Resolved" then clearAux caller_id request_id rs true
              else some ClearOutcome.notResolved
          else clearAux caller_id request_id rs found
      else clearAux caller_id request_id rs found

/-- DELETE /clear-resolved/{caller_id}/{request_id}
(`clear_resolved_request`): scan the in-memory collection; on success only,
persist the (save-normalised) collection.  The in-memory list itself is
never mutated by this endpoint. -/
def clearResolvedRequest (caller_id request_id now : String) (st : AppState) :
    Option (ClearOutcome × AppState) :=
  match clearAux caller_id request_id st.mem false with
  | none => none
  | some ClearOutcome.success =>
      some (ClearOutcome.success, { st with file := saveHelpRequests now st.mem })
  | some o => some (o, st)

/-- The status value that `saveRec` persists for a record. -/
def normStatus (s : Option String) : String :=
  match s with
  | none => "Pending"
  | some s => if s = "pending" then "Pending" else s

/-- Parse result of the persisted help_requests.json as seen by
`load_help_requests`: the file can be absent, unreadable (IO error or
JSON parse error), a list (whose items may or may not be dicts: `none`
stands for a non-dict item), a dict mapping keys to values (`none` for a
non-dict value), or any other JSON value. -/
inductive StoredReqs where
  | missing
  | unreadable
  | list (items : List (Option Rec))
  | dict (entries : List (String × Option Rec))
  | other
deriving DecidableEq

/-- `load_help_requests`: absent, unreadable and other-shaped files give
the empty list; a list keeps only its dict items; a dict becomes a list
of its dict values, filling a missing id from the key. -/
def loadHelpRequests : StoredReqs → List Rec
  | StoredReqs.missing => []
  | StoredReqs.unreadable => []
  | StoredReqs.other => []
  | StoredReqs.list items => items.filterMap id
  | StoredReqs.dict entries =>
      entries.filterMap (fun p =>
        p.2.map (fun v =>
          match v.id with
          | none => { v with id := some p.1 }
          | some _ => v))

/-- A successfully parsed JSON value of the knowledge file: either the
expected object-of-strings shape, or any other JSON shape. -/
inductive KJson where
  | obj (entries : List (String × String))
  | nonObj
deriving DecidableEq

/-- Parse result of knowledge_base.json as seen by
`load_dynamic_knowledge`: absent, unreadable, or parsed JSON. -/
inductive StoredKnow where
  | missing
  | unreadable
  | json (v : KJson)
deriving DecidableEq

/-- `load_dynamic_knowledge`: absent and unreadable files give the empty
map; a successfully parsed file is returned verbatim, with no shape
check. -/
def loadDynamicKnowledge : StoredKnow → KJson
  | StoredKnow.missing => KJson.obj []
  | StoredKnow.unreadable => KJson.obj []
  | StoredKnow.json v => v

/-- An entry of the relay replay cache (`pending_requests[room][rid]` in
notification_service.py). -/
structure CacheEntry where
  question : String
  status : String
  answer : Option String
  created_at : String
  resolved_at : Option String
deriving DecidableEq, Repr

/-- The relay replay cache: room → (request_id → entry). -/
abbrev Cache := List (String × List (String × CacheEntry))

/-- An event sent over a relay WebSocket connection (the timestamp field
is omitted: it is freshly generated on each send). -/
inductive Event where
  | created (request_id question : String)
  | resolved (request_id question : String) (answer : Option String)
deriving DecidableEq, Repr

/-- POST /notify/request-created (`notify_request_created`), cache part:
insert or overwrite the pending entry for the room and request id. -/
def notifyCreated (room rid question now : String) (c : Cache) : Cache :=
  dictInsert c room
    (dictInsert ((dictLookup c room).getD []) rid
      { question := question, status := "pending", answer := none,
        created_at := now, resolved_at := none })

/-- POST /notify/request-resolved (`notify_request_resolved`), cache part:
update an existing entry in place (its question and created_at are kept),
or create a fresh resolved entry when the room or request id is unknown. -/
def notifyResolved (room rid question : String) (answer : Option String)
    (now : String) (c : Cache) : Cache :=
  match dictLookup ((dictLookup c room).getD []) rid with
  | some e =>
      dictInsert c room
        (dictInsert ((dictLookup c room).getD []) rid
          { e with status := "resolved", answer := answer,
                   resolved_at := some now })
  | none =>
      dictInsert c room
        (dictInsert ((dictLookup c room).getD []) rid
          { question := question, status := "resolved", answer := answer,
            created_at := now, resolved_at := some now })

/-- DELETE /clear-resolved/{room_id}/{request_id} on the relay
(`clear_resolved_request` in notification_service.py): remove the cache
entry, 404 (`none`) when absent. -/
def clearCache (room rid : String) (c : Cache) : Option Cache :=
  match dictLookup c room with
  | some m =>
      if (dictLookup m rid).isSome then
        some (dictInsert c room (dictRemove m rid))
      else none
  | none => none

/-- The replay step of the WebSocket endpoint, per cached entry: a
resolved entry is re-sent as a request_resolved event, a pending entry as
a request_created event; an entry with any other status is skipped (the
source uses an elif chain). -/
def replayEntry (rid : String) (e : CacheEntry) : Option Event :=
  if e.status = "resolved" then some (Event.resolved rid e.question e.answer)
  else if e.status = "pending" then some (Event.created rid e.question)
  else none

/-- Events sent to a freshly opened WebSocket subscription on a room
(`websocket_endpoint`, replay-on-open part). -/
def replay (c : Cache) (room : String) : List Event :=
  ((dictLookup c room).getD []).filterMap (fun p => replayEntry p.1 p.2)

/-- Invariant of the replay cache: every entry carries status pending or
resolved (the only statuses the relay operations ever write). -/
def StatusOK (c : Cache) : Prop :=
  ∀ p ∈ c, ∀ q ∈ p.2, q.2.status = "pending" ∨ q.2.status = "resolved"

/-- Normalisation used by the voice agent for duplicate detection:
`question.lower().strip()`. -/
def normalizeQuestion (q : String) : String := trimStr (lowerStr q)

/-- Python substring containment `needle in hay` on strings. -/
def isSubstrOf (needle hay : String) : Bool :=
  decide (needle.data <:+: hay.data)

/-- The cleanup pass of `_question_recently_escalated`: drop entries
escalated more than 300 seconds ago (strictly older). -/
def cleanupRecent (now : Nat) (m : List (String × Nat)) : List (String × Nat) :=
  m.filter (fun p => decide (now - p.2 ≤ 300))

/-- `SalonAssistant._question_recently_escalated`: after cleanup, report
whether any remembered normalised question contains, or is contained in,
the normalised incoming question.  Returns the flag and the cleaned map
(the source mutates the map in place). -/
def questionRecentlyEscalated (q : String) (now : Nat)
    (m : List (String × Nat)) : Bool × List (String × Nat) :=
  let qn := normalizeQuestion q
  let m1 := cleanupRecent now m
  (m1.any (fun p => isSubstrOf qn p.1 || isSubstrOf p.1 qn), m1)

/-- An entry of the voice-agent help_requests.json file
(`save_help_request` writes question, timestamp and status). -/
structure AgentFileEntry where
  question : String
  timestamp : String
  status : String
deriving DecidableEq, Repr

/-- State of the voice-agent client touched by `create_help_request`: the
recently-escalated map (normalised question → epoch seconds), the
agent-side help_requests.json dict (request id → entry) and the in-memory
pending-requests dict (request id → question). -/
structure AgentState where
  recentlyEscalated : List (String × Nat)
  agentFile : List (String × AgentFileEntry)
  pendingRequests : List (String × String)
deriving DecidableEq, Repr

/-- `save_help_request` in voice_agent.py: if some stored entry has the
same normalised question, return its id and leave the file unchanged;
else insert the new entry under the fresh id. -/
def saveHelpRequestFile (rid q nowIso : String)
    (file : List (String × AgentFileEntry)) :
    String × List (String × AgentFileEntry) :=
  let ql := normalizeQuestion q
  match file.find? (fun p => normalizeQuestion p.2.question == ql) with
  | some p => (p.1, file)
  | none =>
      (rid, dictInsert file rid
        { question := q, timestamp := nowIso, status := "pending" })

/-- Result of the create_help_request tool (its fixed response text and
estimated_time field are omitted). -/
structure CHRResult where
  status : String
  help_request_id : String
deriving DecidableEq, Repr

/-- `SalonAssistant.create_help_request`: if the question was recently
escalated, return without creating anything (the duplicate path only
runs the cleanup inside the check); otherwise mark the question as
escalated, write the agent file, call POST /call on the API (modelled by
`api`: `none` is a failed or non-200 call, `some idOpt` a 200 response
carrying `idOpt` as its optional help_request_id) and remember the
pending request.  The final Bool reports whether an escalation (file
write plus API call) was performed. -/
def createHelpRequest (q : String) (now : Nat) (freshId nowIso : String)
    (api : Option (Option String)) (st : AgentState) :
    CHRResult × AgentState × Bool :=
  let chk := questionRecentlyEscalated q now st.recentlyEscalated
  if chk.1 then
    ({ status := "escalated", help_request_id := "pending" },
     { st with recentlyEscalated := chk.2 }, false)
  else
    let marked := dictInsert chk.2 (normalizeQuestion q) now
    let fileRes := saveHelpRequestFile freshId q nowIso st.agentFile
    match api with
    | none =>
        ({ status := "escalated", help_request_id := fileRes.1 },
         { recentlyEscalated := marked, agentFile := fileRes.2,
           pendingRequests := st.pendingRequests }, true)
    | some idOpt =>
        let rid := idOpt.getD fileRes.1
        ({ status := "escalated", help_request_id := rid },
         { recentlyEscalated := marked, agentFile := fileRes.2,
           pendingRequests := dictInsert st.pendingRequests rid q }, true)

/-- The reconnect delay update of `_start_websocket_client`:
`retry_delay = min(retry_delay * 2, 60)`. -/
def nextDelay (d : Nat) : Nat := min (d * 2) 60

/-- The reconnect delay before the (n+1)-th consecutive failed attempt:
5 at the start, doubled and capped at 60 after each failure. -/
def delaySeq : Nat → Nat
  | 0 => 5
  | n + 1 => nextDelay (delaySeq n)

/-- The retry loop of `_start_websocket_client` when every connection
attempt fails: with `n` attempts still allowed (`max_retries` minus the
accumulated `retry_count`; the loop guard is
`while retry_count < max_retries`) and the current delay, the list of
sleeps performed before the client gives up. -/
def wsRetryDelaysFrom : Nat → Nat → List Nat
  | 0, _ => []
  | n + 1, delay => delay :: wsRetryDelaysFrom n (nextDelay delay)

/-- The delays a fresh client (retry_count 0, retry_delay 5, max_retries
5) sleeps when every connection attempt fails. -/
def wsClientFailureDelays : List Nat := wsRetryDelaysFrom 5 5

/-- A sample Pending record (as created by POST /call for an unknown
question), used for concrete instantiations. -/
def samplePending : Rec :=
  { id := some "r1", question := some "can i pay in euros?",
    caller_info := some "room-1", status := some "Pending",
    created_at := some "T0", resolved_at := none, answer := none }

/-- A sample service state holding one persisted Pending record. -/
def sampleState1 : AppState :=
  { mem := [], file := [samplePending], learned := [] }

/-- A Pending record whose stored question is a baseline question (such
records enter the shared file through the voice-agent side, which writes
its help request before consulting the API). -/
def baselinePendingRec : Rec :=
  { id := some "r1", question := some "what are your salon hours?",
    caller_info := some "room-1", status := some "Pending",
    created_at := some "T0", resolved_at := none, answer := none }

/-- A service state holding one Pending record for a baseline question. -/
def baselinePendingState : AppState :=
  { mem := [baselinePendingRec], file := [baselinePendingRec], learned := [] }

/-- A sample cached pending entry used in concrete instantiations. -/
def e1W : CacheEntry :=
  { question := "q1", status := "pending", answer := none,
    created_at := "T1", resolved_at := none }

/-- A sample cached resolved entry used in concrete instantiations. -/
def e2W : CacheEntry :=
  { question := "q2", status := "resolved", answer := some "a2",
    created_at := "T0", resolved_at := some "T2" }

/-- The inner map of `cacheW` for room-1. -/
def mW : List (String × CacheEntry) := [("r2", e2W), ("r1", e1W)]

/-- A sample relay cache reached by two creations and one resolution. -/
def cacheW : Cache :=
  notifyResolved "room-1" "r2" "q2" (some "a2") "T2"
    (notifyCreated "room-1" "r1" "q1" "T1"
      (notifyCreated "room-1" "r2" "q2" "T0" []))

/-- A Resolved record matched by a concrete delivery-acknowledgment
call. -/
def resolvedRecC9 : Rec :=
  { id := some "a1", question := some "q1", caller_info := some "room-1",
    status := some "Resolved", created_at := some "T0",
    resolved_at := some "T1", answer := some "ans" }

/-- A record carrying the legacy lowercase pending status (the shape the
voice-agent side writes into the shared file). -/
def legacyPendingRecC9 : Rec :=
  { id := some "b2", question := some "q2", caller_info := some "room-2",
    status := some "pending", created_at := some "T0",
    resolved_at := none, answer := none }

/-- A service state holding a Resolved record next to a legacy
lowercase-pending record. -/
def stC9 : AppState :=
  { mem := [resolvedRecC9, legacyPendingRecC9],
    file := [resolvedRecC9, legacyPendingRecC9], learned := [] }

/-! ### Helper lemmas about the Python-dict model -/

theorem find?_map_upsert {β : Type} (k : String) (v : β) :
    ∀ m : List (String × β), m.any (fun p => p.1 == k) = true →
      (m.map (fun p => if p.1 == k then (k, v) else p)).find?
          (fun p => p.1 == k) = some (k, v)
  | [], h => by simp at h
  | p :: ps, h => by
    by_cases hk : p.1 = k
    · simp [List.find?, hk]
    · have hk2 : (p.1 == k) = false := by simp [hk]
      have hps : ps.any (fun p => p.1 == k) = true := by
        simp [List.any_cons, hk2] at h
        simpa using h
      have hid : (if (p.1 == k) = true then (k, v) else p) = p := by
        simp [hk2]
      simp only [List.map_cons, hid]
      rw [List.find?_cons_of_neg _ (by simp [hk2])]
      exact find?_map_upsert k v ps hps

theorem find?_append_new {β : Type} (k : String) (v : β) :
    ∀ m : List (String × β), m.any (fun p => p.1 == k) = false →
      (m ++ [(k, v)]).find? (fun p => p.1 == k) = some (k, v)
  | [], _ => by simp [List.find?]
  | p :: ps, h => by
    have hk2 : (p.1 == k) = false := by
      cases hpk : (p.1 == k) with
      | false => rfl
      | true => simp [List.any_cons, hpk] at h
    have hps : ps.any (fun p => p.1 == k) = false := by
      simp [List.any_cons, hk2] at h
      simpa using h
    simp only [List.cons_append, List.find?, hk2]
    exact find?_append_new k v ps hps

theorem dictLookup_dictInsert_self {β : Type} (m : List (String × β))
    (k : String) (v : β) : dictLookup (dictInsert m k v) k = some v := by
  unfold dictInsert dictLookup
  split
  · rw [find?_map_upsert k v m (by assumption)]
    rfl
  · rename_i h
    have hf : m.any (fun p => p.1 == k) = false := by
      cases hb : m.any (fun p => p.1 == k) with
      | false => rfl
      | true => exact absurd hb h
    rw [find?_append_new k v m hf]
    rfl

theorem mem_dictInsert {β : Type} {m : List (String × β)} {k : String}
    {v : β} {x : String × β} (h : x ∈ dictInsert m k v) :
    x = (k, v) ∨ x ∈ m := by
  unfold dictInsert at h
  split at h
  · obtain ⟨a, ha, hax⟩ := List.mem_map.mp h
    by_cases hk : a.1 = k
    · left
      simpa [hk] using hax.symm
    · right
      have : a = x := by simpa [hk] using hax
      exact this ▸ ha
  · rcases List.mem_append.mp h with h1 | h2
    · right; exact h1
    · left; simpa using h2

theorem dictLookup_exists_mem {β : Type} {m : List (String × β)}
    {k : String} {v : β} (h : dictLookup m k = some v) :
    ∃ p ∈ m, p.1 = k ∧ p.2 = v := by
  unfold dictLookup at h
  obtain ⟨p, hp, hpv⟩ := Option.map_eq_some'.mp h
  refine ⟨p, List.mem_of_find?_eq_some hp, ?_, hpv⟩
  have := List.find?_some hp
  simpa using this

/-! ### Helper lemmas about save-time normalisation -/

theorem saveRec_id (now : String) (r : Rec) : (saveRec now r).id = r.id := by
  unfold saveRec
  rcases r with ⟨i, q, c, s, ca, ra, a⟩
  cases s with
  | none => cases ca <;> rfl
  | some sv =>
    by_cases hp : sv = "pending"
    · simp only [hp, if_true]
      cases ca <;> rfl
    · simp only [if_neg hp]
      cases ca <;> rfl

theorem saveRec_status (now : String) (r : Rec) :
    (saveRec now r).status = some (normStatus r.status) := by
  unfold saveRec normStatus
  rcases r with ⟨i, q, c, s, ca, ra, a⟩
  cases s with
  | none => cases ca <;> rfl
  | some sv =>
    by_cases hp : sv = "pending"
    · simp only [hp, if_true]
      cases ca <;> rfl
    · simp only [if_neg hp]
      cases ca <;> rfl

/-! ### Helper lemmas about the resolve scan -/

theorem resolveAux_eq_none_iff (rid ans now : String) :
    ∀ L : List Rec, (resolveAux rid ans now L = none ↔
      ∀ r ∈ L, ¬ (r.id = some rid ∧ lowerStr (r.status.getD "") = "pending"))
  | [] => by simp [resolveAux]
  | r :: rs => by
    by_cases hid : r.id = some rid
    · by_cases hp : lowerStr (r.status.getD "") = "pending"
      · simp [resolveAux, hid, hp]
      · simp only [resolveAux, if_pos hid, if_neg hp, Option.map_eq_none',
          List.forall_mem_cons]
        rw [resolveAux_eq_none_iff rid ans now rs]
        simp [hid, hp]
    · simp only [resolveAux, if_neg hid, Option.map_eq_none',
        List.forall_mem_cons]
      rw [resolveAux_eq_none_iff rid ans now rs]
      simp [hid]

theorem resolveAux_found (rid ans now : String) :
    ∀ (L : List Rec) (r : Rec),
      L.countP (fun x => x.id == some rid) ≤ 1 →
      r ∈ L → r.id = some rid → lowerStr (r.status.getD "") = "pending" →
      ∃ L1, resolveAux rid ans now L =
          some (L1, r.question, r.caller_info.getD "Unknown Caller") ∧
        ∀ x ∈ L1, x.id = some rid → x.status = some "Resolved"
  | [], r, _, hr, _, _ => absurd hr (List.not_mem_nil r)
  | h :: hs, r, hcount, hr, hid, hpend => by
    by_cases hh : h.id = some rid
    · have hc0 : hs.countP (fun x => x.id == some rid) = 0 := by
        have hstep : (h :: hs).countP (fun x => x.id == some rid) =
            hs.countP (fun x => x.id == some rid) + 1 := by
          rw [List.countP_cons]
          simp [hh]
        rw [hstep] at hcount
        omega
      have hnone : ∀ x ∈ hs, ¬ x.id = some rid := by
        intro x hx
        have := List.countP_eq_zero.mp hc0 x hx
        simpa using this
      have hrh : r = h := by
        rcases List.mem_cons.mp hr with h1 | h1
        · exact h1
        · exact absurd hid (hnone r h1)
      subst hrh
      refine ⟨{ r with status := some "Resolved", resolved_at := some now,
                       answer := some ans } :: hs, ?_, ?_⟩
      · simp [resolveAux, hid, hpend]
      · intro x hx hxid
        rcases List.mem_cons.mp hx with h1 | h1
        · subst h1; rfl
        · exact absurd hxid (hnone x h1)
    · have hrs : r ∈ hs := by
        rcases List.mem_cons.mp hr with h1 | h1
        · exact absurd (h1 ▸ hid) hh
        · exact h1
      have hcount2 : hs.countP (fun x => x.id == some rid) ≤ 1 := by
        have hstep : (h :: hs).countP (fun x => x.id == some rid) =
            hs.countP (fun x => x.id == some rid) := by
          rw [List.countP_cons]
          simp [hh]
        rw [hstep] at hcount
        exact hcount
      obtain ⟨L1, heq, hprop⟩ :=
        resolveAux_found rid ans now hs r hcount2 hrs hid hpend
      refine ⟨h :: L1, ?_, ?_⟩
      · simp [resolveAux, hh, heq]
      · intro x hx hxid
        rcases List.mem_cons.mp hx with h1 | h1
        · exact absurd (h1 ▸ hxid) hh
        · exact hprop x h1 hxid

theorem resolveRequest_notFound_iff (rid ans now : String) (st : AppState) :
    (resolveRequest rid ans now st).1 = ResolveResult.notFound ↔
      resolveAux rid ans now st.file = none := by
  unfold resolveRequest
  cases h : resolveAux rid ans now st.file with
  | none => simp [h]
  | some t =>
    obtain ⟨L1, q?, c⟩ := t
    cases q? with
    | none => simp [h]
    | some q => by_cases hq : q = "" <;> simp [h, hq]

theorem resolveRequest_file_of_some (rid ans now : String) (st : AppState)
    (L1 : List Rec) (q? : Option String) (c : String)
    (heq : resolveAux rid ans now st.file = some (L1, q?, c)) :
    (resolveRequest rid ans now st).2.file = saveHelpRequests now L1 := by
  unfold resolveRequest
  rw [heq]
  cases q? with
  | none => rfl
  | some q => by_cases hq : q = "" <;> simp [hq]

/-! ### Claim C1 -/

/-- C1: POST /resolve-request fails with NotFound exactly when no stored
record carries the requested id with a Pending status under
case-insensitive comparison (with unique ids this is: the id is absent,
or the matching record is not Pending); for a Pending record the call
succeeds, and an immediately repeated resolve call with the same id
fails with NotFound. -/
theorem c1_resolve_notFound_iff_and_second_fails
    (rid ans now ans2 now2 : String) (st : AppState)
    (hcount : st.file.countP (fun x => x.id == some rid) ≤ 1) :
    ((resolveRequest rid ans now st).1 = ResolveResult.notFound ↔
      ¬ ∃ r ∈ st.file, r.id = some rid ∧
        lowerStr (r.status.getD "") = "pending") ∧
    (∀ r ∈ st.file, r.id = some rid →
      lowerStr (r.status.getD "") = "pending" →
      (resolveRequest rid ans now st).1 ≠ ResolveResult.notFound ∧
      (resolveRequest rid ans2 now2 (resolveRequest rid ans now st).2).1 =
        ResolveResult.notFound) := by
  constructor
  · rw [resolveRequest_notFound_iff, resolveAux_eq_none_iff]
    constructor
    · rintro h ⟨r, hr, hp⟩
      exact h r hr hp
    · intro h r hr hp
      exact h ⟨r, hr, hp⟩
  · intro r hr hid hpend
    obtain ⟨L1, heq, hprop⟩ :=
      resolveAux_found rid ans now st.file r hcount hr hid hpend
    constructor
    · intro hcontra
      rw [resolveRequest_notFound_iff, heq] at hcontra
      simp at hcontra
    · rw [resolveRequest_notFound_iff]
      rw [resolveRequest_file_of_some rid ans now st L1 r.question
        (r.caller_info.getD "Unknown Caller") heq]
      rw [resolveAux_eq_none_iff]
      intro x hx
      rintro ⟨hxid, hxpend⟩
      obtain ⟨y, hy, hyx⟩ :
          ∃ y ∈ L1, saveRec now y = x := by
        simpa [saveHelpRequests] using hx
      have hyid : y.id = some rid := by
        rw [← saveRec_id now y, hyx]
        exact hxid
      have hyst := hprop y hy hyid
      have hxst : x.status = some "Resolved" := by
        rw [← hyx, saveRec_status, hyst]
        decide
      rw [hxst] at hxpend
      exact absurd hxpend (by decide)

/-- Witness for C1 at a concrete one-record Pending state: the first
resolve succeeds and the immediately repeated resolve fails. -/
theorem c1_witness :
    (resolveRequest "r1" "ans A" "T1" sampleState1).1 ≠
      ResolveResult.notFound ∧
    (resolveRequest "r1" "ans B" "T2"
        (resolveRequest "r1" "ans A" "T1" sampleState1).2).1 =
      ResolveResult.notFound :=
  (c1_resolve_notFound_iff_and_second_fails "r1" "ans A" "T1" "ans B" "T2"
      sampleState1 (by decide)).2 samplePending (by decide) (by decide)
    (by decide)

/-! ### Claim C2 -/

/-- C2 counterexample: resolving a Pending request whose stored question
is a baseline question succeeds and learns the supervisor answer into the
learned map, yet a subsequent POST /call on that stored normalized
question does not return the submitted answer (the baseline tier
shadows the freshly learned one). -/
theorem c2_counterexample :
    (resolveRequest "r1" "We are open 24/7." "T1" baselinePendingState).1 ≠
      ResolveResult.notFound ∧
    dictLookup (resolveRequest "r1" "We are open 24/7." "T1"
        baselinePendingState).2.learned "what are your salon hours?" =
      some "We are open 24/7." ∧
    (receiveCall "what are your salon hours?" "room-1" "f1" "T2"
        (resolveRequest "r1" "We are open 24/7." "T1"
          baselinePendingState).2).1.response ≠ "We are open 24/7." := by
  refine ⟨by decide, by decide, by decide⟩

/-- C2 (amended): after a successful resolve of a record with a non-empty
stored question q, the learned map maps q to the submitted answer, and —
provided q is normalized and is not a baseline question — a subsequent
POST /call on q is answered with that answer. -/
theorem c2_resolved_answer_lookup (rid ans now : String) (st : AppState)
    (r : Rec) (q : String)
    (hcount : st.file.countP (fun x => x.id == some rid) ≤ 1)
    (hr : r ∈ st.file) (hid : r.id = some rid)
    (hpend : lowerStr (r.status.getD "") = "pending")
    (hq : r.question = some q) (hne : q ≠ "") (hnorm : lowerStr q = q)
    (hbase : dictLookup knowledge_base q = none)
    (caller2 fid2 now2 : String) :
    dictLookup (resolveRequest rid ans now st).2.learned q = some ans ∧
    (receiveCall q caller2 fid2 now2 (resolveRequest rid ans now st).2).1 =
      { response := ans, status := "answered", help_request_id := none } := by
  obtain ⟨L1, heq, hprop⟩ :=
    resolveAux_found rid ans now st.file r hcount hr hid hpend
  rw [hq] at heq
  have hstate : (resolveRequest rid ans now st).2.learned =
      dictInsert st.learned q ans := by
    unfold resolveRequest
    rw [heq]
    simp [hne]
  constructor
  · rw [hstate]
    exact dictLookup_dictInsert_self st.learned q ans
  · simp only [receiveCall, hnorm, hbase, hstate,
      dictLookup_dictInsert_self]

/-- Witness for the amended C2 at a concrete one-record Pending state. -/
theorem c2_witness :
    dictLookup (resolveRequest "r1" "ans A" "T1" sampleState1).2.learned
        "can i pay in euros?" = some "ans A" ∧
    (receiveCall "can i pay in euros?" "room-2" "f9" "T3"
        (resolveRequest "r1" "ans A" "T1" sampleState1).2).1 =
      { response := "ans A", status := "answered",
        help_request_id := none } :=
  c2_resolved_answer_lookup "r1" "ans A" "T1" sampleState1 samplePending
    "can i pay in euros?" (by decide) (by decide) (by decide) (by decide)
    (by decide) (by decide) (by decide) (by decide) "room-2" "f9" "T3"

/-! ### Claim C3 -/

/-- C3: a question present in the baseline knowledge base is answered
from the baseline for every state of the learned map (including one that
maps the same normalized question to a different answer): the learned
tier is consulted only on a baseline miss, so baseline entries are never
shadowed. -/
theorem c3_baseline_never_shadowed (q caller fid now : String)
    (st : AppState) (a : String)
    (hbase : dictLookup knowledge_base (lowerStr q) = some a) :
    receiveCall q caller fid now st =
      ({ response := a, status := "answered", help_request_id := none },
       st, none) := by
  unfold receiveCall
  rw [hbase]

/-- Witness for C3: a learned entry conflicting with a baseline question
does not shadow the baseline answer. -/
theorem c3_witness :
    receiveCall "Do you take walk-ins?" "room-7" "f1" "T"
        ⟨[], [], [("do you take walk-ins?", "No, never.")]⟩ =
      ({ response := "Yes, we accept walk-ins, but appointments are recommended for minimal wait time.",
         status := "answered", help_request_id := none },
       ⟨[], [], [("do you take walk-ins?", "No, never.")]⟩, none) :=
  c3_baseline_never_shadowed "Do you take walk-ins?" "room-7" "f1" "T"
    ⟨[], [], [("do you take walk-ins?", "No, never.")]⟩
    "Yes, we accept walk-ins, but appointments are recommended for minimal wait time."
    (by decide)

/-! ### Claim C4 -/

/-- C4: POST /call on a question found in the baseline or learned
knowledge responds answered with the stored answer and leaves the state
untouched (no ledger entry, no notification); otherwise it appends a
Pending ledger entry, persists the collection, sends a
created-notification and responds escalated carrying the new id. -/
theorem c4_call_answer_or_escalate (q0 caller fid now : String)
    (st : AppState) :
    (∀ a, (dictLookup knowledge_base (lowerStr q0) = some a ∨
        (dictLookup knowledge_base (lowerStr q0) = none ∧
         dictLookup st.learned (lowerStr q0) = some a)) →
      receiveCall q0 caller fid now st =
        ({ response := a, status := "answered", help_request_id := none },
         st, none)) ∧
    ((dictLookup knowledge_base (lowerStr q0) = none ∧
      dictLookup st.learned (lowerStr q0) = none) →
      receiveCall q0 caller fid now st =
        ({ response := escalationResponse, status := "escalated",
           help_request_id := some fid },
         { st with
             mem := st.mem ++ [mkHelpRequest (lowerStr q0) caller fid now],
             file := saveHelpRequests now
               (st.mem ++ [mkHelpRequest (lowerStr q0) caller fid now]) },
         some { room_id := roomIdOf caller, request_id := fid,
                question := lowerStr q0, answer := none,
                status := "pending" }) ∧
      (mkHelpRequest (lowerStr q0) caller fid now).status = some "Pending") := by
  constructor
  · rintro a (h | ⟨h1, h2⟩)
    · unfold receiveCall
      rw [h]
    · unfold receiveCall
      rw [h1, h2]
  · rintro ⟨h1, h2⟩
    refine ⟨?_, rfl⟩
    unfold receiveCall
    rw [h1, h2]

/-- Witness for C4: a concrete escalation and a concrete baseline
answer. -/
theorem c4_witness :
    (receiveCall "can i pay in euros?" "room-1" "abc123" "T0"
        ⟨[], [], []⟩).1.status = "escalated" ∧
    (receiveCall "Do you take walk-ins?" "room-1" "abc123" "T0"
        ⟨[], [], []⟩).1.status = "answered" := by
  have h1 := (c4_call_answer_or_escalate "can i pay in euros?" "room-1"
      "abc123" "T0" ⟨[], [], []⟩).2 ⟨by decide, by decide⟩
  have h2 := (c4_call_answer_or_escalate "Do you take walk-ins?" "room-1"
      "abc123" "T0" ⟨[], [], []⟩).1
    "Yes, we accept walk-ins, but appointments are recommended for minimal wait time."
    (Or.inl (by decide))
  exact ⟨by rw [h1.1], by rw [h2]⟩

/-! ### Claim C10 -/

theorem dropWhile_eq_cons_head_false {α : Type} (p : α → Bool) :
    ∀ (l : List α) (a : α) (t : List α), l.dropWhile p = a :: t → p a = false
  | [], a, t, h => by simp [List.dropWhile] at h
  | x :: xs, a, t, h => by
    rw [List.dropWhile_cons] at h
    by_cases hx : p x = true
    · rw [if_pos hx] at h
      exact dropWhile_eq_cons_head_false p xs a t h
    · rw [if_neg hx] at h
      cases h
      simpa using hx

/-- C10: in the escalation path of POST /call, the created-notification
carries as room_id exactly the prefix of caller_info before the first
hash character, while the ledger entry created for the same call stores
the full caller_info string; when caller_info contains no hash, the two
coincide. -/
theorem c10_room_id_split (q0 caller fid now : String) (st : AppState)
    (hbase : dictLookup knowledge_base (lowerStr q0) = none)
    (hlearn : dictLookup st.learned (lowerStr q0) = none) :
    ∃ notif rest,
      (receiveCall q0 caller fid now st).2.2 = some notif ∧
      (receiveCall q0 caller fid now st).2.1.mem =
        st.mem ++ [mkHelpRequest (lowerStr q0) caller fid now] ∧
      (mkHelpRequest (lowerStr q0) caller fid now).caller_info =
        some caller ∧
      caller.data = notif.room_id.data ++ rest ∧
      '#' ∉ notif.room_id.data ∧
      ('#' ∈ caller.data → ∃ t, rest = '#' :: t) ∧
      ('#' ∉ caller.data → notif.room_id = caller) := by
  have hcall : (receiveCall q0 caller fid now st).2.2 =
      some { room_id := roomIdOf caller, request_id := fid,
             question := lowerStr q0, answer := none,
             status := "pending" } := by
    unfold receiveCall
    rw [hbase, hlearn]
  have hmem : (receiveCall q0 caller fid now st).2.1.mem =
      st.mem ++ [mkHelpRequest (lowerStr q0) caller fid now] := by
    unfold receiveCall
    rw [hbase, hlearn]
  by_cases hs : '#' ∈ caller.data
  · refine ⟨_, caller.data.dropWhile (fun ch => ch != '#'), hcall, hmem,
      rfl, ?_, ?_, ?_, ?_⟩
    · show caller.data = (roomIdOf caller).data ++ _
      unfold roomIdOf
      rw [if_pos hs]
      exact (List.takeWhile_append_dropWhile _ _).symm
    · show '#' ∉ (roomIdOf caller).data
      unfold roomIdOf
      rw [if_pos hs]
      intro hmemtw
      have := List.mem_takeWhile_imp hmemtw
      simp at this
    · intro _
      cases hdw : caller.data.dropWhile (fun ch => ch != '#') with
      | nil =>
        exfalso
        have hta : caller.data.takeWhile (fun ch => ch != '#') =
            caller.data := by
          have happ :=
            List.takeWhile_append_dropWhile (fun ch => ch != '#') caller.data
          rw [hdw] at happ
          simpa using happ
        have h2 : '#' ∈ caller.data.takeWhile (fun ch => ch != '#') := by
          rw [hta]
          exact hs
        have := List.mem_takeWhile_imp h2
        simp at this
      | cons a t =>
        have hfa := dropWhile_eq_cons_head_false _ caller.data a t hdw
        have ha : a = '#' := by simpa using hfa
        exact ⟨t, by rw [ha]⟩
    · intro hns
      exact absurd hs hns
  · refine ⟨_, [], hcall, hmem, rfl, ?_, ?_, ?_, ?_⟩
    · show caller.data = (roomIdOf caller).data ++ []
      unfold roomIdOf
      rw [if_neg hs]
      simp
    · show '#' ∉ (roomIdOf caller).data
      unfold roomIdOf
      rw [if_neg hs]
      exact hs
    · intro hcontra
      exact absurd hcontra hs
    · intro _
      show roomIdOf caller = caller
      unfold roomIdOf
      rw [if_neg hs]

/-- Witness for C10 at a concrete caller string containing a hash. -/
theorem c10_witness :
    ∃ notif rest,
      (receiveCall "can i pay in euros?" "room-1#sess9" "f1" "T0"
          (⟨[], [], []⟩ : AppState)).2.2 = some notif ∧
      (receiveCall "can i pay in euros?" "room-1#sess9" "f1" "T0"
          (⟨[], [], []⟩ : AppState)).2.1.mem =
        [] ++ [mkHelpRequest (lowerStr "can i pay in euros?") "room-1#sess9"
          "f1" "T0"] ∧
      (mkHelpRequest (lowerStr "can i pay in euros?") "room-1#sess9" "f1"
          "T0").caller_info = some "room-1#sess9" ∧
      ("room-1#sess9" : String).data = notif.room_id.data ++ rest ∧
      '#' ∉ notif.room_id.data ∧
      ('#' ∈ ("room-1#sess9" : String).data → ∃ t, rest = '#' :: t) ∧
      ('#' ∉ ("room-1#sess9" : String).data → notif.room_id = "room-1#sess9") :=
  c10_room_id_split "can i pay in euros?" "room-1#sess9" "f1" "T0"
    ⟨[], [], []⟩ (by decide) (by decide)

/-! ### Claim C5 -/

theorem statusOK_inner {c : Cache} (h : StatusOK c) (room : String) :
    ∀ q ∈ (dictLookup c room).getD [],
      q.2.status = "pending" ∨ q.2.status = "resolved" := by
  intro q hq
  cases hlk : dictLookup c room with
  | none =>
    rw [hlk] at hq
    simp at hq
  | some m =>
    rw [hlk] at hq
    simp only [Option.getD_some] at hq
    obtain ⟨p, hp, _, hpv⟩ := dictLookup_exists_mem hlk
    exact h p hp q (by rw [hpv]; exact hq)

/-- C5: on a newly opened WebSocket subscription to a channel, the relay
immediately replays the channel cache: every cached entry is re-sent as a
request_resolved event carrying the cached answer if its status is
resolved, else as a request_created event.  The status invariant
hypothesis holds in every reachable relay state: see `statusOK_empty`,
`statusOK_notifyCreated`, `statusOK_notifyResolved` and
`statusOK_clearCache`. -/
theorem c5_replay_on_open (c : Cache) (room : String)
    (m : List (String × CacheEntry)) (rid : String) (e : CacheEntry)
    (hok : StatusOK c) (hm : dictLookup c room = some m)
    (he : (rid, e) ∈ m) :
    (e.status = "resolved" →
      Event.resolved rid e.question e.answer ∈ replay c room) ∧
    (e.status ≠ "resolved" →
      Event.created rid e.question ∈ replay c room) := by
  have hrep : replay c room = m.filterMap (fun p => replayEntry p.1 p.2) := by
    unfold replay
    rw [hm]
    rfl
  constructor
  · intro hres
    rw [hrep]
    refine List.mem_filterMap.mpr ⟨(rid, e), he, ?_⟩
    unfold replayEntry
    rw [if_pos hres]
  · intro hnres
    have hpend : e.status = "pending" := by
      obtain ⟨p, hp, _, hpv⟩ := dictLookup_exists_mem hm
      rcases hok p hp (rid, e) (by rw [hpv]; exact he) with h1 | h1
      · exact h1
      · exact absurd h1 hnres
    rw [hrep]
    refine List.mem_filterMap.mpr ⟨(rid, e), he, ?_⟩
    unfold replayEntry
    rw [if_neg (by rw [hpend]; decide), if_pos hpend]

/-- Witness for C5 on a concrete reachable cache: the pending entry is
replayed as request_created and the resolved entry as request_resolved. -/
theorem c5_witness :
    Event.created "r1" "q1" ∈ replay cacheW "room-1" ∧
    Event.resolved "r2" "q2" (some "a2") ∈ replay cacheW "room-1" := by
  have h1 := c5_replay_on_open cacheW "room-1" mW "r1" e1W
    (by unfold StatusOK; decide) (by decide) (by decide)
  have h2 := c5_replay_on_open cacheW "room-1" mW "r2" e2W
    (by unfold StatusOK; decide) (by decide) (by decide)
  exact ⟨h1.2 (by decide), h2.1 (by decide)⟩

/-- The empty initial relay cache satisfies the status invariant. -/
theorem statusOK_empty : StatusOK [] := by
  intro p hp
  simp at hp

/-- Publishing a created-notification preserves the status invariant. -/
theorem statusOK_notifyCreated (room rid q now : String) (c : Cache)
    (h : StatusOK c) : StatusOK (notifyCreated room rid q now c) := by
  intro p hp qe hqe
  unfold notifyCreated at hp
  rcases mem_dictInsert hp with hpe | hpc
  · subst hpe
    rcases mem_dictInsert hqe with hq1 | hq2
    · subst hq1
      left
      rfl
    · exact statusOK_inner h room qe hq2
  · exact h p hpc qe hqe

/-- Publishing a resolved-notification preserves the status invariant. -/
theorem statusOK_notifyResolved (room rid q : String) (a : Option String)
    (now : String) (c : Cache) (h : StatusOK c) :
    StatusOK (notifyResolved room rid q a now c) := by
  intro p hp qe hqe
  unfold notifyResolved at hp
  cases hfind : dictLookup ((dictLookup c room).getD []) rid with
  | some e =>
    simp only [hfind] at hp
    rcases mem_dictInsert hp with hpe | hpc
    · subst hpe
      rcases mem_dictInsert hqe with hq1 | hq2
      · subst hq1
        right
        rfl
      · exact statusOK_inner h room qe hq2
    · exact h p hpc qe hqe
  | none =>
    simp only [hfind] at hp
    rcases mem_dictInsert hp with hpe | hpc
    · subst hpe
      rcases mem_dictInsert hqe with hq1 | hq2
      · subst hq1
        right
        rfl
      · exact statusOK_inner h room qe hq2
    · exact h p hpc qe hqe

/-- Deleting a cache entry preserves the status invariant. -/
theorem statusOK_clearCache (room rid : String) (c c2 : Cache)
    (h : StatusOK c) (hc : clearCache room rid c = some c2) :
    StatusOK c2 := by
  unfold clearCache at hc
  cases hlk : dictLookup c room with
  | none =>
    simp only [hlk] at hc
    exact Option.noConfusion hc
  | some m =>
    simp only [hlk] at hc
    by_cases hin : (dictLookup m rid).isSome
    · rw [if_pos hin] at hc
      cases hc
      intro p hp qe hqe
      rcases mem_dictInsert hp with hpe | hpc
      · subst hpe
        have hqm : qe ∈ m := List.mem_of_mem_filter hqe
        obtain ⟨pm, hpm, _, hpv⟩ := dictLookup_exists_mem hlk
        exact h pm hpm qe (by rw [hpv]; exact hqm)
      · exact h p hpc qe hqe
    · rw [if_neg hin] at hc
      simp at hc

/-! ### Claim C6 -/

/-- C6: if a question q1 was escalated by the subscriber client within
the last 5 minutes (300 seconds), then escalating any question q2 whose
normalised text equals, contains or is contained in the normalised text
of q1 does not create a second request: the duplicate check returns true
and create_help_request performs no escalation call, no agent-file write
and no pending-request insertion. -/
theorem c6_duplicate_suppression (q1 q2 : String) (t1 now : Nat)
    (st : AgentState) (freshId nowIso : String)
    (api : Option (Option String))
    (hmem : (normalizeQuestion q1, t1) ∈ st.recentlyEscalated)
    (hfresh : now - t1 ≤ 300)
    (hrel : (normalizeQuestion q2).data <:+: (normalizeQuestion q1).data ∨
            (normalizeQuestion q1).data <:+: (normalizeQuestion q2).data) :
    (questionRecentlyEscalated q2 now st.recentlyEscalated).1 = true ∧
    ∀ res st2 escalated,
      createHelpRequest q2 now freshId nowIso api st = (res, st2, escalated) →
      escalated = false ∧ st2.agentFile = st.agentFile ∧
      st2.pendingRequests = st.pendingRequests := by
  have hkeep : (normalizeQuestion q1, t1) ∈
      cleanupRecent now st.recentlyEscalated := by
    unfold cleanupRecent
    exact List.mem_filter.mpr ⟨hmem, by simpa using hfresh⟩
  have hchk :
      (questionRecentlyEscalated q2 now st.recentlyEscalated).1 = true := by
    unfold questionRecentlyEscalated
    rw [List.any_eq_true]
    refine ⟨(normalizeQuestion q1, t1), hkeep, ?_⟩
    rcases hrel with h | h
    · have hd : isSubstrOf (normalizeQuestion q2) (normalizeQuestion q1) =
          true := decide_eq_true h
      simp [hd]
    · have hd : isSubstrOf (normalizeQuestion q1) (normalizeQuestion q2) =
          true := decide_eq_true h
      simp [hd]
  refine ⟨hchk, ?_⟩
  intro res st2 escalated heq
  simp only [createHelpRequest] at heq
  rw [if_pos hchk] at heq
  injection heq with ha hrest
  injection hrest with hb hc
  refine ⟨hc.symm, ?_, ?_⟩
  · rw [← hb]
  · rw [← hb]

/-- Witness for C6 at the concrete scenario from the spec: escalating the
bridal-makeup question and, 100 seconds later, its extension. -/
theorem c6_witness :
    (questionRecentlyEscalated "do you have bridal makeup services" 200
      [("do you have bridal makeup", 100)]).1 = true ∧
    (createHelpRequest "do you have bridal makeup services" 200 "abc12345"
      "2026-01-01" none
      (⟨[("do you have bridal makeup", 100)], [], []⟩ : AgentState)).2.2 =
      false := by
  have h := c6_duplicate_suppression "do you have bridal makeup"
    "do you have bridal makeup services" 100 200
    (⟨[("do you have bridal makeup", 100)], [], []⟩ : AgentState)
    "abc12345" "2026-01-01" none (by decide) (by decide)
    (Or.inr (by decide))
  exact ⟨h.1, (h.2 _ _ _ rfl).1⟩

/-! ### Claim C7 -/

/-- C7: the reconnect delay sequence starts at 5, doubles after each
consecutive failure, is capped at 60 (yielding 5, 10, 20, 40, 60, 60,
...), is monotonically non-decreasing, and the client abandons
reconnecting after 5 consecutive failed attempts, having slept 5, 10,
20, 40 and 60 seconds. -/
theorem c7_backoff (n : Nat) :
    delaySeq 0 = 5 ∧
    delaySeq (n + 1) = min (delaySeq n * 2) 60 ∧
    delaySeq n ≤ delaySeq (n + 1) ∧
    delaySeq n ≤ 60 ∧
    (4 ≤ n → delaySeq n = 60) ∧
    wsClientFailureDelays = [5, 10, 20, 40, 60] ∧
    wsClientFailureDelays.length = 5 := by
  have hcap : ∀ m, delaySeq m ≤ 60 := by
    intro m
    induction m with
    | zero => decide
    | succ k ih =>
      show nextDelay (delaySeq k) ≤ 60
      unfold nextDelay
      exact Nat.min_le_right _ _
  have hmono : ∀ m, delaySeq m ≤ delaySeq (m + 1) := by
    intro m
    show delaySeq m ≤ nextDelay (delaySeq m)
    unfold nextDelay
    refine Nat.le_min.mpr ⟨by omega, hcap m⟩
  have h60 : ∀ k, delaySeq (4 + k) = 60 := by
    intro k
    induction k with
    | zero => decide
    | succ j ih =>
      have hshift : 4 + (j + 1) = (4 + j) + 1 := by omega
      rw [hshift]
      show nextDelay (delaySeq (4 + j)) = 60
      rw [ih]
      decide
  refine ⟨rfl, rfl, hmono n, hcap n, ?_, by decide, by decide⟩
  intro h4
  obtain ⟨k, hk⟩ := Nat.exists_eq_add_of_le h4
  rw [hk]
  exact h60 k

/-- Witness for C7: the delay after the fifth failure is capped at 60 and
the full failing run sleeps exactly the advertised sequence. -/
theorem c7_witness :
    delaySeq 5 = 60 ∧ wsClientFailureDelays = [5, 10, 20, 40, 60] := by
  have h := c7_backoff 5
  exact ⟨h.2.2.2.2.1 (by omega), h.2.2.2.2.2.1⟩

/-! ### Claim C8 -/

/-- C8 counterexample: a knowledge file that parses successfully to a
non-map JSON value is returned verbatim by load_dynamic_knowledge rather
than as the empty map (the function has no shape check, unlike
load_help_requests). -/
theorem c8_counterexample :
    loadDynamicKnowledge (StoredKnow.json KJson.nonObj) ≠ KJson.obj [] := by
  decide

/-- C8 (amended): the help-request load returns the empty list when its
file is missing, unreadable or parses to a non-list non-dict shape; the
learned-knowledge load returns the empty map only when its file is
missing or unreadable, and returns any successfully parsed JSON value
verbatim, whatever its shape. -/
theorem c8_load_corruption (v : KJson) :
    loadHelpRequests StoredReqs.missing = [] ∧
    loadHelpRequests StoredReqs.unreadable = [] ∧
    loadHelpRequests StoredReqs.other = [] ∧
    loadDynamicKnowledge StoredKnow.missing = KJson.obj [] ∧
    loadDynamicKnowledge StoredKnow.unreadable = KJson.obj [] ∧
    loadDynamicKnowledge (StoredKnow.json v) = v :=
  ⟨rfl, rfl, rfl, rfl, rfl, rfl⟩

/-! ### Claim C9 -/

theorem normStatus_id (s : Option String) (h1 : s ≠ some "pending")
    (h2 : s ≠ none) : some (normStatus s) = s := by
  cases s with
  | none => exact absurd rfl h2
  | some sv =>
    have hsv : sv ≠ "pending" := fun hc => h1 (by rw [hc])
    simp [normStatus, hsv]

theorem clearAux_runs (caller_id request_id : String) :
    ∀ (L : List Rec) (found : Bool),
      (∀ r ∈ L, r.id ≠ none ∧ r.caller_info ≠ none ∧ r.status ≠ none) →
      ∃ o, clearAux caller_id request_id L found = some o ∧
        ((¬ ∃ r ∈ L, r.id = some request_id ∧
            r.caller_info = some caller_id) →
          o = if found then ClearOutcome.success else ClearOutcome.notFound) ∧
        ((∃ r ∈ L, r.id = some request_id ∧ r.caller_info = some caller_id ∧
            r.status ≠ some "Resolved") → o = ClearOutcome.notResolved) ∧
        (o = ClearOutcome.success →
          ∀ r ∈ L, r.id = some request_id → r.caller_info = some caller_id →
            r.status = some "Resolved") ∧
        (o = ClearOutcome.notFound ↔ found = false ∧
          ¬ ∃ r ∈ L, r.id = some request_id ∧ r.caller_info = some caller_id)
  | [], found, _ => by
    refine ⟨if found then ClearOutcome.success else ClearOutcome.notFound,
      by simp [clearAux], ?_, ?_, ?_, ?_⟩
    · intro _
      rfl
    · rintro ⟨r, hr, _⟩
      exact absurd hr (List.not_mem_nil r)
    · intro _ r hr
      exact absurd hr (List.not_mem_nil r)
    · cases found <;> simp
  | r :: rs, found, hWF => by
    obtain ⟨hid0, hcal0, hst0⟩ := hWF r (List.mem_cons_self r rs)
    obtain ⟨i, hi⟩ := Option.ne_none_iff_exists'.mp hid0
    obtain ⟨cv, hcv⟩ := Option.ne_none_iff_exists'.mp hcal0
    obtain ⟨sv, hsv⟩ := Option.ne_none_iff_exists'.mp hst0
    have hWFrs : ∀ x ∈ rs, x.id ≠ none ∧ x.caller_info ≠ none ∧
        x.status ≠ none := fun x hx => hWF x (List.mem_cons_of_mem r hx)
    by_cases hieq : i = request_id
    · by_cases hceq : cv = caller_id
      · have hmatch : r.id = some request_id ∧
            r.caller_info = some caller_id :=
          ⟨by rw [hi, hieq], by rw [hcv, hceq]⟩
        by_cases hres : sv = "Resolved"
        · obtain ⟨o, ho, ih1, ih2, ih3, ih4⟩ :=
            clearAux_runs caller_id request_id rs true hWFrs
          have hstep : clearAux caller_id request_id (r :: rs) found =
              clearAux caller_id request_id rs true := by
            simp [clearAux, hi, hcv, hsv, hieq, hceq, hres]
          refine ⟨o, by rw [hstep, ho], ?_, ?_, ?_, ?_⟩
          · intro hno
            exact absurd ⟨r, List.mem_cons_self r rs, hmatch⟩ hno
          · rintro ⟨x, hx, hx1, hx2, hx3⟩
            rcases List.mem_cons.mp hx with rfl | hxs
            · exact absurd (by rw [hsv, hres]) hx3
            · exact ih2 ⟨x, hxs, hx1, hx2, hx3⟩
          · intro hsucc x hx hx1 hx2
            rcases List.mem_cons.mp hx with rfl | hxs
            · rw [hsv, hres]
            · exact ih3 hsucc x hxs hx1 hx2
          · rw [ih4]
            constructor
            · rintro ⟨h1, _⟩
              exact absurd h1 (by decide)
            · rintro ⟨_, hno⟩
              exact absurd ⟨r, List.mem_cons_self r rs, hmatch⟩ hno
        · have hstep : clearAux caller_id request_id (r :: rs) found =
              some ClearOutcome.notResolved := by
            simp [clearAux, hi, hcv, hsv, hieq, hceq, hres]
          refine ⟨ClearOutcome.notResolved, hstep, ?_, ?_, ?_, ?_⟩
          · intro hno
            exact absurd ⟨r, List.mem_cons_self r rs, hmatch⟩ hno
          · intro _
            rfl
          · intro hcon
            exact absurd hcon (by decide)
          · constructor
            · intro hcon
              exact absurd hcon (by decide)
            · rintro ⟨_, hno⟩
              exact absurd ⟨r, List.mem_cons_self r rs, hmatch⟩ hno
      · have hnm : ¬ (r.id = some request_id ∧
            r.caller_info = some caller_id) := by
          rintro ⟨_, hc2⟩
          rw [hcv] at hc2
          exact hceq (Option.some.inj hc2)
        obtain ⟨o, ho, ih1, ih2, ih3, ih4⟩ :=
          clearAux_runs caller_id request_id rs found hWFrs
        have hstep : clearAux caller_id request_id (r :: rs) found =
            clearAux caller_id request_id rs found := by
          simp [clearAux, hi, hcv, hieq, hceq]
        refine ⟨o, by rw [hstep, ho], ?_, ?_, ?_, ?_⟩
        · intro hno
          refine ih1 ?_
          rintro ⟨x, hx, hxm⟩
          exact hno ⟨x, List.mem_cons_of_mem r hx, hxm⟩
        · rintro ⟨x, hx, hx1, hx2, hx3⟩
          rcases List.mem_cons.mp hx with rfl | hxs
          · exact absurd ⟨hx1, hx2⟩ hnm
          · exact ih2 ⟨x, hxs, hx1, hx2, hx3⟩
        · intro hsucc x hx hx1 hx2
          rcases List.mem_cons.mp hx with rfl | hxs
          · exact absurd ⟨hx1, hx2⟩ hnm
          · exact ih3 hsucc x hxs hx1 hx2
        · rw [ih4]
          constructor
          · rintro ⟨hf, hno⟩
            refine ⟨hf, ?_⟩
            rintro ⟨x, hx, hxm⟩
            rcases List.mem_cons.mp hx with rfl | hxs
            · exact hnm hxm
            · exact hno ⟨x, hxs, hxm⟩
          · rintro ⟨hf, hno⟩
            refine ⟨hf, ?_⟩
            rintro ⟨x, hx, hxm⟩
            exact hno ⟨x, List.mem_cons_of_mem r hx, hxm⟩
    · have hnm : ¬ (r.id = some request_id ∧
          r.caller_info = some caller_id) := by
        rintro ⟨hc1, _⟩
        rw [hi] at hc1
        exact hieq (Option.some.inj hc1)
      obtain ⟨o, ho, ih1, ih2, ih3, ih4⟩ :=
        clearAux_runs caller_id request_id rs found hWFrs
      have hstep : clearAux caller_id request_id (r :: rs) found =
          clearAux caller_id request_id rs found := by
        simp [clearAux, hi, hieq]
      refine ⟨o, by rw [hstep, ho], ?_, ?_, ?_, ?_⟩
      · intro hno
        refine ih1 ?_
        rintro ⟨x, hx, hxm⟩
        exact hno ⟨x, List.mem_cons_of_mem r hx, hxm⟩
      · rintro ⟨x, hx, hx1, hx2, hx3⟩
        rcases List.mem_cons.mp hx with rfl | hxs
        · exact absurd ⟨hx1, hx2⟩ hnm
        · exact ih2 ⟨x, hxs, hx1, hx2, hx3⟩
      · intro hsucc x hx hx1 hx2
        rcases List.mem_cons.mp hx with rfl | hxs
        · exact absurd ⟨hx1, hx2⟩ hnm
        · exact ih3 hsucc x hxs hx1 hx2
      · rw [ih4]
        constructor
        · rintro ⟨hf, hno⟩
          refine ⟨hf, ?_⟩
          rintro ⟨x, hx, hxm⟩
          rcases List.mem_cons.mp hx with rfl | hxs
          · exact hnm hxm
          · exact hno ⟨x, hxs, hxm⟩
        · rintro ⟨hf, hno⟩
          refine ⟨hf, ?_⟩
          rintro ⟨x, hx, hxm⟩
          exact hno ⟨x, List.mem_cons_of_mem r hx, hxm⟩

/-- C9 counterexample: a successful delivery-acknowledgment call rewrites
the persisted status field of an unrelated record from lowercase pending
to Pending (via the save-time normalisation), so the status field of a
stored record is not the same before and after the call. -/
theorem c9_counterexample :
    (clearResolvedRequest "room-1" "a1" "T9" stC9).map
        (fun p => (p.1, p.2.file.map Rec.status)) =
      some (ClearOutcome.success, [some "Resolved", some "Pending"]) ∧
    stC9.file.map Rec.status = [some "Resolved", some "pending"] := by
  refine ⟨by decide, by decide⟩

/-- C9 (amended): the delivery-acknowledgment operation never performs a
status transition: it fails (state untouched) when no record matches both
id and channel or when a matched record is not Resolved; on success every
matched record was already Resolved, and every persisted status equals
the prior status up to the save-time normalisation, which rewrites only a
lowercase pending or missing status to Pending and is the identity on
every other status value (in particular on Resolved). -/
theorem c9_clear_no_transition (caller_id request_id now : String)
    (st : AppState)
    (hWF : ∀ r ∈ st.mem, r.id ≠ none ∧ r.caller_info ≠ none ∧
      r.status ≠ none) :
    ∃ o st2, clearResolvedRequest caller_id request_id now st =
        some (o, st2) ∧
      st2.mem = st.mem ∧
      (o ≠ ClearOutcome.success → st2 = st) ∧
      (o = ClearOutcome.success →
        st2.file.map Rec.status =
          st.mem.map (fun r => some (normStatus r.status)) ∧
        ∀ r ∈ st.mem, r.id = some request_id →
          r.caller_info = some caller_id → r.status = some "Resolved") ∧
      ((¬ ∃ r ∈ st.mem, r.id = some request_id ∧
          r.caller_info = some caller_id) → o = ClearOutcome.notFound) ∧
      (o = ClearOutcome.notFound →
        ¬ ∃ r ∈ st.mem, r.id = some request_id ∧
          r.caller_info = some caller_id) ∧
      ((∃ r ∈ st.mem, r.id = some request_id ∧
          r.caller_info = some caller_id ∧ r.status ≠ some "Resolved") →
        o = ClearOutcome.notResolved) ∧
      (∀ s : Option String, s ≠ some "pending" → s ≠ none →
        some (normStatus s) = s) := by
  obtain ⟨o, ho, h1, h2, h3, h4⟩ :=
    clearAux_runs caller_id request_id st.mem false hWF
  have hsave : (saveHelpRequests now st.mem).map Rec.status =
      st.mem.map (fun r => some (normStatus r.status)) := by
    unfold saveHelpRequests
    rw [List.map_map]
    exact List.map_congr_left (fun r _ => saveRec_status now r)
  cases o with
  | success =>
    refine ⟨ClearOutcome.success,
      { st with file := saveHelpRequests now st.mem }, ?_, rfl, ?_, ?_, ?_,
      ?_, ?_, normStatus_id⟩
    · unfold clearResolvedRequest
      rw [ho]
    · intro hne
      exact absurd rfl hne
    · intro _
      exact ⟨hsave, h3 rfl⟩
    · intro hno
      have := h1 hno
      exact absurd this (by decide)
    · intro hcon
      exact absurd hcon (by decide)
    · intro hex
      exact absurd (h2 hex) (by decide)
  | notFound =>
    refine ⟨ClearOutcome.notFound, st, ?_, rfl, fun _ => rfl, ?_, fun _ => rfl,
      ?_, ?_, normStatus_id⟩
    · unfold clearResolvedRequest
      rw [ho]
    · intro hcon
      exact absurd hcon (by decide)
    · intro _
      exact (h4.mp rfl).2
    · intro hex
      exact absurd (h2 hex) (by decide)
  | notResolved =>
    refine ⟨ClearOutcome.notResolved, st, ?_, rfl, fun _ => rfl, ?_, ?_, ?_,
      fun _ => rfl, normStatus_id⟩
    · unfold clearResolvedRequest
      rw [ho]
    · intro hcon
      exact absurd hcon (by decide)
    · intro hno
      have := h1 hno
      exact absurd this (by decide)
    · intro hcon
      exact absurd hcon (by decide)

/-- Witness for the amended C9 at a concrete state holding a Resolved
record. -/
theorem c9_witness :
    ∃ o st2, clearResolvedRequest "room-1" "a1" "T9" stC9 =
        some (o, st2) ∧ st2.mem = stC9.mem := by
  obtain ⟨o, st2, hrun, hmem, _⟩ :=
    c9_clear_no_transition "room-1" "a1" "T9" stC9 (by decide)
  exact ⟨o, st2, hrun, hmem⟩

end HelpDesk
